import Mathlib

set_option linter.unusedVariables false

/-!
Shallow embedding of the OBS LiveSplit One plugin core (src/lib.rs):
the process-wide shared-timer registry (the static TIMERS table), the
overlay-instance lifecycle (create / update / destroy), the control
dispatcher callbacks (media_play_pause, mouse_wheel, save_splits,
media_get_duration) and the per-frame render step.  External collaborators
(livesplit-core timers and layouts, the OBS graphics API) are modelled at
their interface boundary, as the design document scopes them.
-/

namespace ObsLiveSplitOne

/-- Splits identity: the filesystem path used as the sharing key. -/
abbrev Path := String

/-- Timer phase, mirroring livesplit-core TimerPhase as used in src/lib.rs. -/
inductive TimerPhase
  | NotRunning
  | Running
  | Ended
  | Paused
deriving DecidableEq

/-- Timing method, mirroring livesplit-core TimingMethod. -/
inductive TimingMethod
  | RealTime
  | GameTime
deriving DecidableEq

/-- Modelled from the spec: a segment of a run, carrying its personal-best
split time per timing method (in whole milliseconds, already converted the
way media_get_duration converts them), as exposed by the external
livesplit-core collaborator. -/
structure Segment where
  name : String
  pbReal : Option Int
  pbGame : Option Int
deriving DecidableEq

/-- Modelled from the spec: a run is its list of segments (the internal
split data model is out of scope; only the segment list is visible at the
interface used by src/lib.rs). -/
structure Run where
  segments : List Segment
deriving DecidableEq

/-- Kind reported by the external composite splits parser. -/
inductive TimerKind
  | LiveSplit
  | Other
deriving DecidableEq

/-- Contents of a splits file as seen through fs read plus the external
composite parser: unreadable, unparsable, or parsed into a run of some kind. -/
inductive SplitsFile
  | missing
  | malformed
  | parsed (run : Run) (kind : TimerKind)
deriving DecidableEq

/-- parse_run from src/lib.rs: read the file, parse it, reject empty runs,
and report whether the source format was LiveSplit (save-back support). -/
def parse_run (f : SplitsFile) : Option (Run × Bool) :=
  match f with
  | SplitsFile.missing => none
  | SplitsFile.malformed => none
  | SplitsFile.parsed run kind =>
    if run.segments.isEmpty then none
    else some (run, decide (kind = TimerKind.LiveSplit))

/-- default_run from src/lib.rs: a run with one segment named Time, and the
cannot-save flag (false). -/
def default_run : Run × Bool := (⟨[⟨"Time", none, none⟩]⟩, false)

/-- Contents of a layout file as seen by parse_layout: an empty configured
path, an unreadable file, JSON layout settings, an .lsl layout document, or
a malformed file. -/
inductive LayoutFile
  | emptyPath
  | unreadable
  | jsonSettings (data : String)
  | lslDocument (data : String)
  | malformed
deriving DecidableEq

/-- Modelled from the spec: a layout configuration as produced by the
external layout parser, together with the scroll operations applied to it
(kept symbolic, since the layout internals are out of scope). -/
inductive LayoutV
  | defaultLayout
  | fromSettings (data : String)
  | fromDocument (data : String)
  | scrolledDown (l : LayoutV)
  | scrolledUp (l : LayoutV)
deriving DecidableEq

/-- parse_layout from src/lib.rs: an empty path or an unreadable or
unparsable file yields none; JSON layout settings are tried first, then the
.lsl document parser. -/
def parse_layout (f : LayoutFile) : Option LayoutV :=
  match f with
  | LayoutFile.emptyPath => none
  | LayoutFile.unreadable => none
  | LayoutFile.jsonSettings d => some (LayoutV.fromSettings d)
  | LayoutFile.lslDocument d => some (LayoutV.fromDocument d)
  | LayoutFile.malformed => none

/-- Modelled from the spec: the externally supplied Timing State Object at
its interface boundary - the run it was built from, its current phase, and
the active timing method. -/
structure TimerCore where
  run : Run
  phase : TimerPhase
  method : TimingMethod
deriving DecidableEq

/-- Modelled from the spec: timer construction (livesplit-core Timer::new,
unwrapped in src/lib.rs) fails exactly when the run has no segments; a fresh
timer starts NotRunning. -/
def Timer.new (run : Run) : Option TimerCore :=
  if run.segments.isEmpty then none
  else some { run := run, phase := TimerPhase.NotRunning, method := TimingMethod.RealTime }

/-- Modelled from the spec: start transitions a NotRunning timer to Running. -/
def Timer.start (t : TimerCore) : TimerCore :=
  if t.phase = TimerPhase.NotRunning then { t with phase := TimerPhase.Running } else t

/-- Modelled from the spec: pause transitions a Running timer to Paused. -/
def Timer.pause (t : TimerCore) : TimerCore :=
  if t.phase = TimerPhase.Running then { t with phase := TimerPhase.Paused } else t

/-- Modelled from the spec: resume transitions a Paused timer to Running. -/
def Timer.resume (t : TimerCore) : TimerCore :=
  if t.phase = TimerPhase.Paused then { t with phase := TimerPhase.Running } else t

/-- media_play_pause from src/lib.rs: dispatch on the current phase and the
requested pause flag, exactly as the source match does. -/
def media_play_pause (t : TimerCore) (pause : Bool) : TimerCore :=
  match t.phase with
  | TimerPhase.NotRunning => if !pause then Timer.start t else t
  | TimerPhase.Running => if pause then Timer.pause t else t
  | TimerPhase.Ended => t
  | TimerPhase.Paused => if !pause then Timer.resume t else t

/-- mouse_wheel from src/lib.rs, layout part: the source matches
y_delta.cmp(0) - Less scrolls down, Equal does nothing, Greater scrolls
up - written here as the equivalent three-way sign test. -/
def mouse_wheel (y_delta : Int) (l : LayoutV) : LayoutV :=
  if y_delta < 0 then LayoutV.scrolledDown l
  else if 0 < y_delta then LayoutV.scrolledUp l
  else l

/-- media_get_duration from src/lib.rs: read the personal-best split time of
the last segment of the run (none models the panicking unwrap on a run with
no segments); a missing time defaults to 0 milliseconds. -/
def media_get_duration (t : TimerCore) : Option Int :=
  (t.run.segments.getLast?).map fun seg =>
    (match t.method with
     | TimingMethod.RealTime => seg.pbReal
     | TimingMethod.GameTime => seg.pbGame).getD 0

/-- save_splits from src/lib.rs: when the can-save flag is set, attempt to
create the splits file and, on success, serialize the timer into it.  The
first component is the value returned to OBS (always false); the second is
the list of filesystem writes performed, as (path, serialized timer) pairs.
File creation is a host filesystem effect, modelled by the createOk oracle. -/
def save_splits (createOk : Path → Bool) (canSave : Bool) (p : Path) (t : TimerCore) :
    Bool × List (Path × TimerCore) :=
  if canSave then
    if createOk p then (false, [(p, t)]) else (false, [])
  else (false, [])

/-- One entry of the process-wide TIMERS table: a timer together with the
path it was registered under and its current strong (owning) reference
count; a strong count of zero is a dead weak reference. -/
structure TimerObj where
  path : Path
  strong : Nat
  core : TimerCore
deriving DecidableEq

/-- Placeholder timer used as the default of out-of-range list reads; never
reachable under the registry invariant. -/
def dummyTimer : TimerObj :=
  { path := "", strong := 0,
    core := { run := ⟨[]⟩, phase := TimerPhase.NotRunning, method := TimingMethod.RealTime } }

/-- The shared state behind the static TIMERS mutex: the arena of all timer
objects ever created (indexed by allocation order) and the registry of
(path, weak reference) pairs, a weak reference being an arena index. -/
structure Sys where
  timers : List TimerObj
  registry : List (Path × Nat)
deriving DecidableEq

/-- Strong reference count of arena slot i. -/
def strongOf (s : Sys) (i : Nat) : Nat := (s.timers.getD i dummyTimer).strong

/-- Registration path of arena slot i. -/
def pathOf (s : Sys) (i : Nat) : Path := (s.timers.getD i dummyTimer).path

/-- Timer value in arena slot i. -/
def coreOf (s : Sys) (i : Nat) : TimerCore := (s.timers.getD i dummyTimer).core

/-- The prune step of the registry (timers.retain in src/lib.rs): drop every
entry whose weak reference no longer upgrades, i.e. whose strong count is 0. -/
def prune (s : Sys) : Sys :=
  { s with registry := s.registry.filter fun e => decide (0 < strongOf s e.2) }

/-- One more owner of a timer object (the count of a cloned Arc). -/
def bumpStrong (t : TimerObj) : TimerObj := { t with strong := t.strong + 1 }

/-- One fewer owner of a timer object (a dropped Arc). -/
def dropStrong (t : TimerObj) : TimerObj := { t with strong := t.strong - 1 }

/-- A timer object with its timer value overwritten. -/
def withCore (t : TimerObj) (core : TimerCore) : TimerObj := { t with core := core }

/-- Take one more owning reference to arena slot i (a successful Weak
upgrade, or the Arc handed to a new holder). -/
def incStrong (s : Sys) (i : Nat) : Sys :=
  { s with timers := s.timers.set i (bumpStrong (s.timers.getD i dummyTimer)) }

/-- Drop one owning reference to arena slot i (an Arc going out of scope). -/
def decStrong (s : Sys) (i : Nat) : Sys :=
  { s with timers := s.timers.set i (dropStrong (s.timers.getD i dummyTimer)) }

/-- Overwrite the timer value in arena slot i (a mutation through the
RwLock write guard). -/
def setTimerCore (s : Sys) (i : Nat) (core : TimerCore) : Sys :=
  { s with timers := s.timers.set i (withCore (s.timers.getD i dummyTimer) core) }

/-- Register a freshly constructed timer: append it to the arena with one
owner (the caller's Arc) and append a weak registry entry for it under p. -/
def appendTimer (s : Sys) (p : Path) (core : TimerCore) : Sys :=
  { timers := s.timers ++ [{ path := p, strong := 1, core := core }],
    registry := s.registry ++ [(p, s.timers.length)] }

/-- The shared-timer resolution block of State::new and update in
src/lib.rs, run under the TIMERS lock: prune dead entries, look for a live
entry with exactly this path (find_map with upgrade), and on a miss build a
new timer from the run (Timer::new, which the source unwraps - none models
that unwrap failing), register a weak reference to it, and hand the owning
reference to the caller. -/
def resolve (s : Sys) (p : Path) (run : Run) : Option (Nat × Sys) :=
  match (prune s).registry.find? (fun e => e.1 == p && decide (0 < strongOf (prune s) e.2)) with
  | some e => some (e.2, incStrong (prune s) e.2)
  | none =>
    match Timer.new run with
    | some core => some ((prune s).timers.length, appendTimer (prune s) p core)
    | none => none

/-- The raw OBS settings of an instance, with the two configured files
already fetched from the filesystem (obs_data_get_string plus fs read). -/
structure RawSettings where
  splits_path : Path
  splits_file : SplitsFile
  layout_file : LayoutFile
  width : Nat
  height : Nat
deriving DecidableEq

/-- The Settings struct of src/lib.rs (auto-splitting feature disabled). -/
structure Settings where
  run : Run
  splits_path : Path
  can_save_splits : Bool
  layout : LayoutV
  width : Nat
  height : Nat
deriving DecidableEq

/-- parse_settings from src/lib.rs: parse the splits file, falling back to
default_run (which also clears the save flag); parse the layout file,
falling back to the default layout. -/
def parse_settings (raw : RawSettings) : Settings :=
  { run := ((parse_run raw.splits_file).getD default_run).1,
    splits_path := raw.splits_path,
    can_save_splits := ((parse_run raw.splits_file).getD default_run).2,
    layout := (parse_layout raw.layout_file).getD LayoutV.defaultLayout,
    width := raw.width,
    height := raw.height }

/-- The visual state cache (livesplit-core LayoutState), kept symbolic: the
default value, or the result of a Layout::update_state call recorded with
its inputs. -/
inductive LayoutStateV
  | default
  | updateState (layout : LayoutV) (prev : LayoutStateV) (snapshot : TimerCore)
deriving DecidableEq

/-- The per-instance State struct of src/lib.rs (auto-splitting disabled):
the arena index of the shared timer, splits path, save flag, layout, visual
state cache, render-target handle with the last pixel upload into it, and
the configured size. -/
structure Instance where
  timerId : Nat
  splitsPath : Path
  can_save_splits : Bool
  layout : LayoutV
  layoutState : LayoutStateV
  texture : Nat
  textureContent : Option (LayoutStateV × Nat × Nat)
  width : Nat
  height : Nat
deriving DecidableEq

/-- The whole process: the TIMERS table, every instance slot OBS has created
(none once destroyed), a fresh-handle counter for render targets, and the
log of render targets destroyed so far. -/
structure World where
  sys : Sys
  instances : List (Option Instance)
  nextTexture : Nat
  destroyedTextures : List Nat
deriving DecidableEq

/-- The process at module load: no timers, no registry entries, no
instances. -/
def initWorld : World :=
  { sys := { timers := [], registry := [] },
    instances := [],
    nextTexture := 0,
    destroyedTextures := [] }

/-- The body of the create callback after settings parsing (State::new):
resolve the shared timer, allocate a render target of the configured size,
and append the new Active instance. -/
def createWith (w : World) (settings : Settings) : Option World :=
  match resolve w.sys settings.splits_path settings.run with
  | none => none
  | some (tid, sys1) =>
    some { sys := sys1,
           instances := w.instances ++
             [some { timerId := tid,
                     splitsPath := settings.splits_path,
                     can_save_splits := settings.can_save_splits,
                     layout := settings.layout,
                     layoutState := LayoutStateV.default,
                     texture := w.nextTexture,
                     textureContent := none,
                     width := settings.width,
                     height := settings.height }],
           nextTexture := w.nextTexture + 1,
           destroyedTextures := w.destroyedTextures }

/-- The create callback of src/lib.rs: parse the settings, then build the
instance state. -/
def createOp (w : World) (raw : RawSettings) : Option World :=
  createWith w (parse_settings raw)

/-- The body of the update callback after settings parsing: re-resolve the
shared timer (the old owning reference is dropped right after, when
state.timer is overwritten), overwrite path, save flag and layout, and only
when the configured size changed create a fresh render target, swap it in
and destroy the old one. -/
def updateWith (w : World) (idx : Nat) (settings : Settings) : Option World :=
  match w.instances.getD idx none with
  | none => some w
  | some inst =>
    match resolve w.sys settings.splits_path settings.run with
    | none => none
    | some (tid, sys1) =>
      if inst.width != settings.width || inst.height != settings.height then
        some { sys := decStrong sys1 inst.timerId,
               instances := w.instances.set idx
                 (some { inst with
                   splitsPath := settings.splits_path,
                   can_save_splits := settings.can_save_splits,
                   timerId := tid,
                   layout := settings.layout,
                   width := settings.width,
                   height := settings.height,
                   texture := w.nextTexture }),
               nextTexture := w.nextTexture + 1,
               destroyedTextures := w.destroyedTextures ++ [inst.texture] }
      else
        some { sys := decStrong sys1 inst.timerId,
               instances := w.instances.set idx
                 (some { inst with
                   splitsPath := settings.splits_path,
                   can_save_splits := settings.can_save_splits,
                   timerId := tid,
                   layout := settings.layout }),
               nextTexture := w.nextTexture,
               destroyedTextures := w.destroyedTextures }

/-- The update callback of src/lib.rs: parse the settings, then reconfigure
the instance in place. -/
def updateOp (w : World) (idx : Nat) (raw : RawSettings) : Option World :=
  updateWith w idx (parse_settings raw)

/-- The destroy callback of src/lib.rs: drop the State (releasing its owning
timer reference) and destroy its render target. -/
def destroyOp (w : World) (idx : Nat) : World :=
  match w.instances.getD idx none with
  | none => w
  | some inst =>
    { sys := decStrong w.sys inst.timerId,
      instances := w.instances.set idx none,
      nextTexture := w.nextTexture,
      destroyedTextures := w.destroyedTextures ++ [inst.texture] }

/-- The media_play_pause callback applied to the whole process: mutate the
instance's shared timer through the write lock. -/
def mediaPlayPauseOp (w : World) (idx : Nat) (pause : Bool) : World :=
  match w.instances.getD idx none with
  | none => w
  | some inst =>
    { w with sys :=
        setTimerCore w.sys inst.timerId (media_play_pause (coreOf w.sys inst.timerId) pause) }

/-- The mouse_wheel callback applied to the whole process: scroll the
instance's layout; nothing else is touched. -/
def mouseWheelOp (w : World) (idx : Nat) (y_delta : Int) : World :=
  match w.instances.getD idx none with
  | none => w
  | some inst =>
    { w with instances :=
        w.instances.set idx (some { inst with layout := mouse_wheel y_delta inst.layout }) }

/-- The per-frame work of State::update on one instance: advance the visual
state cache from the timer snapshot, rasterize it at the instance size, and
upload the pixels into the render target. -/
def renderedInstance (inst : Instance) (snapshot : TimerCore) : Instance :=
  { inst with
    layoutState := LayoutStateV.updateState inst.layout inst.layoutState snapshot,
    textureContent :=
      some (LayoutStateV.updateState inst.layout inst.layoutState snapshot, inst.width,
        inst.height) }

/-- The video_render callback (State::update in src/lib.rs): snapshot the
shared timer through the read lock, then derive the new visual state and
pixel upload from it.  The timer is only read, never written. -/
def video_render (w : World) (idx : Nat) : World :=
  match w.instances.getD idx none with
  | none => w
  | some inst =>
    { w with instances :=
        w.instances.set idx (some (renderedInstance inst (coreOf w.sys inst.timerId))) }

/-- The host-driven operations that manage timer ownership: instance
create, update and destroy, plus a representative timer-mutating control
event (media play/pause). -/
inductive SysOp
  | create (raw : RawSettings)
  | update (idx : Nat) (raw : RawSettings)
  | destroy (idx : Nat)
  | mediaPlayPause (idx : Nat) (pause : Bool)
deriving DecidableEq

/-- One host call; none models a panic of the unwrap inside the miss branch
of timer resolution. -/
def stepOp (w : World) : SysOp → Option World
  | SysOp.create raw => createOp w raw
  | SysOp.update idx raw => updateOp w idx raw
  | SysOp.destroy idx => some (destroyOp w idx)
  | SysOp.mediaPlayPause idx b => some (mediaPlayPauseOp w idx b)

/-- Run a sequence of host calls from a starting process state. -/
def runOps (w : World) : List SysOp → Option World
  | [] => some w
  | op :: ops =>
    match stepOp w op with
    | none => none
    | some w1 => runOps w1 ops

/-- Slot i currently holds a live timer registered for path p. -/
def liveAt (s : Sys) (i : Nat) (p : Path) : Prop :=
  i < s.timers.length ∧ 0 < strongOf s i ∧ pathOf s i = p

instance (s : Sys) (i : Nat) (p : Path) : Decidable (liveAt s i p) := by
  unfold liveAt; infer_instance

/-- Registry invariant of the TIMERS table: every registry entry points into
the arena at an entry registered under exactly the entry's path; every live
timer is reachable from the registry under its own path; at most one live
timer exists per path; and every timer ever constructed has a segment. -/
def SysInv (s : Sys) : Prop :=
  (∀ e ∈ s.registry, e.2 < s.timers.length ∧ pathOf s e.2 = e.1) ∧
  (∀ i < s.timers.length, 0 < strongOf s i → (pathOf s i, i) ∈ s.registry) ∧
  (∀ i < s.timers.length, ∀ j < s.timers.length,
     0 < strongOf s i → 0 < strongOf s j → pathOf s i = pathOf s j → i = j) ∧
  (∀ t ∈ s.timers, t.core.run.segments ≠ [])

instance (s : Sys) : Decidable (SysInv s) := by
  have d1 : Decidable (∀ e ∈ s.registry, e.2 < s.timers.length ∧ pathOf s e.2 = e.1) :=
    inferInstance
  have d2 : Decidable (∀ i < s.timers.length, 0 < strongOf s i → (pathOf s i, i) ∈ s.registry) :=
    inferInstance
  have d3 : Decidable (∀ i < s.timers.length, ∀ j < s.timers.length,
      0 < strongOf s i → 0 < strongOf s j → pathOf s i = pathOf s j → i = j) :=
    inferInstance
  have d4 : Decidable (∀ t ∈ s.timers, t.core.run.segments ≠ []) := inferInstance
  unfold SysInv
  exact @instDecidableAnd _ _ d1 (@instDecidableAnd _ _ d2 (@instDecidableAnd _ _ d3 d4))

/-- Whole-process invariant: the registry invariant, and every live
instance's timer index is a valid arena slot. -/
def WInv (w : World) : Prop :=
  SysInv w.sys ∧
  ∀ o ∈ w.instances, ∀ inst, o = some inst → inst.timerId < w.sys.timers.length

instance (w : World) : Decidable (WInv w) := by
  have d1 : Decidable (SysInv w.sys) := inferInstance
  have d2 : Decidable (∀ o ∈ w.instances, ∀ inst, o = some inst →
      inst.timerId < w.sys.timers.length) := inferInstance
  unfold WInv
  exact @instDecidableAnd _ _ d1 d2

/-! Helper lemmas about list reads and writes. -/

theorem list_getD_oob {α : Type} (l : List α) (i : Nat) (d : α) (h : l.length ≤ i) :
    l.getD i d = d := by
  rw [List.getD_eq_getElem?_getD, List.getElem?_eq_none h]
  rfl

theorem list_getD_set_self {α : Type} (l : List α) (i : Nat) (x d : α) (h : i < l.length) :
    (l.set i x).getD i d = x := by
  rw [List.getD_eq_getElem?_getD, List.getElem?_set_eq_of_lt x h]
  rfl

theorem list_getD_set_ne {α : Type} (l : List α) (i j : Nat) (x d : α) (h : j ≠ i) :
    (l.set i x).getD j d = l.getD j d := by
  rw [List.getD_eq_getElem?_getD, List.getElem?_set_ne (fun he => h he.symm),
    List.getD_eq_getElem?_getD]

theorem list_set_self {α : Type} (l : List α) (i : Nat) (a : α) (h : l.getD i a = a) :
    l.set i a = l := by
  by_cases hlen : i < l.length
  · apply List.ext_getElem?
    intro n
    by_cases hn : i = n
    · subst hn
      rw [List.getElem?_set_eq_of_lt a hlen]
      rw [List.getD_eq_getElem?_getD] at h
      cases hg : l[i]? with
      | none =>
        rw [List.getElem?_eq_getElem hlen] at hg
        simp at hg
      | some b =>
        rw [hg] at h
        simp only [Option.getD_some] at h
        rw [h]
    · rw [List.getElem?_set_ne hn]
  · exact List.set_eq_of_length_le (Nat.le_of_not_lt hlen)

theorem list_getD_append_left {α : Type} (l l2 : List α) (i : Nat) (d : α)
    (h : i < l.length) : (l ++ l2).getD i d = l.getD i d := by
  rw [List.getD_eq_getElem?_getD, List.getElem?_append_left h, List.getD_eq_getElem?_getD]

theorem list_getD_concat_self {α : Type} (l : List α) (x d : α) :
    (l ++ [x]).getD l.length d = x := by
  rw [List.getD_eq_getElem?_getD, List.getElem?_concat_length]
  rfl

/-! Accessor lemmas for the Sys operations. -/

theorem prune_timers (s : Sys) : (prune s).timers = s.timers := rfl

theorem strongOf_prune (s : Sys) (i : Nat) : strongOf (prune s) i = strongOf s i := rfl

theorem pathOf_prune (s : Sys) (i : Nat) : pathOf (prune s) i = pathOf s i := rfl

theorem coreOf_prune (s : Sys) (i : Nat) : coreOf (prune s) i = coreOf s i := rfl

theorem mem_prune_registry (s : Sys) (e : Path × Nat) :
    e ∈ (prune s).registry ↔ e ∈ s.registry ∧ 0 < strongOf s e.2 := by
  simp [prune, List.mem_filter]

theorem strong_pos_lt_length (s : Sys) (i : Nat) (h : 0 < strongOf s i) :
    i < s.timers.length := by
  by_contra hge
  have hz : strongOf s i = 0 := by
    unfold strongOf
    rw [list_getD_oob _ _ _ (Nat.le_of_not_lt hge)]
    rfl
  omega

theorem incStrong_registry (s : Sys) (i : Nat) : (incStrong s i).registry = s.registry := rfl

theorem incStrong_length (s : Sys) (i : Nat) :
    (incStrong s i).timers.length = s.timers.length := by
  simp [incStrong]

theorem pathOf_incStrong (s : Sys) (i j : Nat) : pathOf (incStrong s i) j = pathOf s j := by
  unfold pathOf incStrong
  by_cases hij : j = i
  · subst hij
    by_cases hlen : j < s.timers.length
    · rw [list_getD_set_self _ _ _ _ hlen]
      rfl
    · rw [List.set_eq_of_length_le (Nat.le_of_not_lt hlen)]
  · rw [list_getD_set_ne _ _ _ _ _ hij]

theorem coreOf_incStrong (s : Sys) (i j : Nat) : coreOf (incStrong s i) j = coreOf s j := by
  unfold coreOf incStrong
  by_cases hij : j = i
  · subst hij
    by_cases hlen : j < s.timers.length
    · rw [list_getD_set_self _ _ _ _ hlen]
      rfl
    · rw [List.set_eq_of_length_le (Nat.le_of_not_lt hlen)]
  · rw [list_getD_set_ne _ _ _ _ _ hij]

theorem strongOf_incStrong_ne (s : Sys) (i j : Nat) (hij : j ≠ i) :
    strongOf (incStrong s i) j = strongOf s j := by
  unfold strongOf incStrong
  rw [list_getD_set_ne _ _ _ _ _ hij]

theorem strongOf_incStrong_self (s : Sys) (i : Nat) (h : i < s.timers.length) :
    strongOf (incStrong s i) i = strongOf s i + 1 := by
  unfold strongOf incStrong
  rw [list_getD_set_self _ _ _ _ h]
  rfl

theorem strongOf_incStrong_pos (s : Sys) (i j : Nat) (h : 0 < strongOf (incStrong s i) j) :
    0 < strongOf s j ∨ j = i := by
  by_cases hij : j = i
  · exact Or.inr hij
  · rw [strongOf_incStrong_ne s i j hij] at h
    exact Or.inl h

theorem decStrong_registry (s : Sys) (i : Nat) : (decStrong s i).registry = s.registry := rfl

theorem decStrong_length (s : Sys) (i : Nat) :
    (decStrong s i).timers.length = s.timers.length := by
  simp [decStrong]

theorem pathOf_decStrong (s : Sys) (i j : Nat) : pathOf (decStrong s i) j = pathOf s j := by
  unfold pathOf decStrong
  by_cases hij : j = i
  · subst hij
    by_cases hlen : j < s.timers.length
    · rw [list_getD_set_self _ _ _ _ hlen]
      rfl
    · rw [List.set_eq_of_length_le (Nat.le_of_not_lt hlen)]
  · rw [list_getD_set_ne _ _ _ _ _ hij]

theorem coreOf_decStrong (s : Sys) (i j : Nat) : coreOf (decStrong s i) j = coreOf s j := by
  unfold coreOf decStrong
  by_cases hij : j = i
  · subst hij
    by_cases hlen : j < s.timers.length
    · rw [list_getD_set_self _ _ _ _ hlen]
      rfl
    · rw [List.set_eq_of_length_le (Nat.le_of_not_lt hlen)]
  · rw [list_getD_set_ne _ _ _ _ _ hij]

theorem strongOf_decStrong_pos (s : Sys) (i j : Nat) (h : 0 < strongOf (decStrong s i) j) :
    0 < strongOf s j := by
  by_cases hij : j = i
  · subst hij
    by_cases hlen : j < s.timers.length
    · unfold strongOf decStrong at h
      rw [list_getD_set_self _ _ _ _ hlen] at h
      simp only [dropStrong] at h
      unfold strongOf
      omega
    · unfold strongOf decStrong at h
      rw [List.set_eq_of_length_le (Nat.le_of_not_lt hlen)] at h
      exact h
  · unfold strongOf decStrong at h
    rw [list_getD_set_ne _ _ _ _ _ hij] at h
    exact h

theorem setTimerCore_registry (s : Sys) (i : Nat) (c : TimerCore) :
    (setTimerCore s i c).registry = s.registry := rfl

theorem setTimerCore_length (s : Sys) (i : Nat) (c : TimerCore) :
    (setTimerCore s i c).timers.length = s.timers.length := by
  simp [setTimerCore]

theorem pathOf_setTimerCore (s : Sys) (i j : Nat) (c : TimerCore) :
    pathOf (setTimerCore s i c) j = pathOf s j := by
  unfold pathOf setTimerCore
  by_cases hij : j = i
  · subst hij
    by_cases hlen : j < s.timers.length
    · rw [list_getD_set_self _ _ _ _ hlen]
      rfl
    · rw [List.set_eq_of_length_le (Nat.le_of_not_lt hlen)]
  · rw [list_getD_set_ne _ _ _ _ _ hij]

theorem strongOf_setTimerCore (s : Sys) (i j : Nat) (c : TimerCore) :
    strongOf (setTimerCore s i c) j = strongOf s j := by
  unfold strongOf setTimerCore
  by_cases hij : j = i
  · subst hij
    by_cases hlen : j < s.timers.length
    · rw [list_getD_set_self _ _ _ _ hlen]
      rfl
    · rw [List.set_eq_of_length_le (Nat.le_of_not_lt hlen)]
  · rw [list_getD_set_ne _ _ _ _ _ hij]

theorem list_getD_mem {α : Type} (l : List α) (i : Nat) (d : α) (h : i < l.length) :
    l.getD i d ∈ l := by
  rw [List.getD_eq_getElem?_getD, List.getElem?_eq_getElem h]
  exact List.getElem_mem h

/-! Parser and timer-construction lemmas. -/

theorem parse_run_nonempty (f : SplitsFile) (r : Run) (b : Bool)
    (h : parse_run f = some (r, b)) : r.segments ≠ [] := by
  unfold parse_run at h
  cases f with
  | missing => simp at h
  | malformed => simp at h
  | parsed run kind =>
    by_cases he : run.segments.isEmpty
    · simp [he] at h
    · simp [he] at h
      obtain ⟨h1, h2⟩ := h
      subst h1
      intro hc
      rw [hc] at he
      exact he rfl

theorem default_run_nonempty : default_run.1.segments ≠ [] := by
  simp [default_run]

theorem parse_settings_run_nonempty (raw : RawSettings) :
    (parse_settings raw).run.segments ≠ [] := by
  unfold parse_settings
  cases hp : parse_run raw.splits_file with
  | none => simp [hp, default_run]
  | some rb =>
    simp only [hp, Option.getD_some]
    exact parse_run_nonempty _ rb.1 rb.2 hp

theorem timer_new_nonempty (run : Run) (h : run.segments ≠ []) :
    Timer.new run =
      some { run := run, phase := TimerPhase.NotRunning, method := TimingMethod.RealTime } := by
  have he : run.segments.isEmpty = false := by
    cases hs : run.segments with
    | nil => exact absurd hs h
    | cons a t => rfl
  simp [Timer.new, he]

theorem timer_new_some_run (run : Run) (core : TimerCore) (h : Timer.new run = some core) :
    core.run = run ∧ core.run.segments ≠ [] := by
  unfold Timer.new at h
  by_cases he : run.segments.isEmpty
  · simp [he] at h
  · simp [he] at h
    subst h
    refine ⟨rfl, ?_⟩
    intro hc
    rw [hc] at he
    exact he rfl

theorem media_play_pause_run (t : TimerCore) (b : Bool) :
    (media_play_pause t b).run = t.run := by
  cases hp : t.phase <;> cases b <;>
    simp [media_play_pause, Timer.start, Timer.pause, Timer.resume, hp]

/-! Invariant preservation for the Sys operations. -/

theorem sysInv_prune (s : Sys) (h : SysInv s) : SysInv (prune s) := by
  obtain ⟨h1, h2, h3, h4⟩ := h
  refine ⟨?_, ?_, ?_, ?_⟩
  · intro e he
    rw [mem_prune_registry] at he
    exact h1 e he.1
  · intro i hi hpos
    rw [mem_prune_registry]
    exact ⟨h2 i hi hpos, hpos⟩
  · exact h3
  · exact h4

theorem sysInv_incStrong (s : Sys) (i : Nat) (hinv : SysInv s)
    (hlive : 0 < strongOf s i) : SysInv (incStrong s i) := by
  obtain ⟨h1, h2, h3, h4⟩ := hinv
  have hlen := strong_pos_lt_length s i hlive
  refine ⟨?_, ?_, ?_, ?_⟩
  · intro e he
    rw [incStrong_registry] at he
    obtain ⟨hb, hpe⟩ := h1 e he
    rw [incStrong_length, pathOf_incStrong]
    exact ⟨hb, hpe⟩
  · intro j hj hpos
    rw [incStrong_length] at hj
    rw [incStrong_registry, pathOf_incStrong]
    rcases strongOf_incStrong_pos s i j hpos with hp | hp
    · exact h2 j hj hp
    · subst hp
      exact h2 j hj hlive
  · intro j hj k hk hpj hpk hpath
    rw [incStrong_length] at hj hk
    rw [pathOf_incStrong, pathOf_incStrong] at hpath
    have hj1 : 0 < strongOf s j := by
      rcases strongOf_incStrong_pos s i j hpj with hp | hp
      · exact hp
      · subst hp; exact hlive
    have hk1 : 0 < strongOf s k := by
      rcases strongOf_incStrong_pos s i k hpk with hp | hp
      · exact hp
      · subst hp; exact hlive
    exact h3 j hj k hk hj1 hk1 hpath
  · intro t ht
    unfold incStrong at ht
    simp only at ht
    rcases List.mem_or_eq_of_mem_set ht with hm | hm
    · exact h4 t hm
    · subst hm
      show (s.timers.getD i dummyTimer).core.run.segments ≠ []
      exact h4 _ (list_getD_mem _ _ _ hlen)

theorem sysInv_decStrong (s : Sys) (i : Nat) (hinv : SysInv s) : SysInv (decStrong s i) := by
  obtain ⟨h1, h2, h3, h4⟩ := hinv
  refine ⟨?_, ?_, ?_, ?_⟩
  · intro e he
    rw [decStrong_registry] at he
    obtain ⟨hb, hpe⟩ := h1 e he
    rw [decStrong_length, pathOf_decStrong]
    exact ⟨hb, hpe⟩
  · intro j hj hpos
    rw [decStrong_length] at hj
    rw [decStrong_registry, pathOf_decStrong]
    exact h2 j hj (strongOf_decStrong_pos s i j hpos)
  · intro j hj k hk hpj hpk hpath
    rw [decStrong_length] at hj hk
    rw [pathOf_decStrong, pathOf_decStrong] at hpath
    exact h3 j hj k hk (strongOf_decStrong_pos s i j hpj)
      (strongOf_decStrong_pos s i k hpk) hpath
  · intro t ht
    unfold decStrong at ht
    simp only at ht
    by_cases hlen : i < s.timers.length
    · rcases List.mem_or_eq_of_mem_set ht with hm | hm
      · exact h4 t hm
      · subst hm
        show (s.timers.getD i dummyTimer).core.run.segments ≠ []
        exact h4 _ (list_getD_mem _ _ _ hlen)
    · rw [List.set_eq_of_length_le (Nat.le_of_not_lt hlen)] at ht
      exact h4 t ht

theorem sysInv_setTimerCore (s : Sys) (i : Nat) (c : TimerCore) (hinv : SysInv s)
    (hc : c.run = (coreOf s i).run) : SysInv (setTimerCore s i c) := by
  obtain ⟨h1, h2, h3, h4⟩ := hinv
  refine ⟨?_, ?_, ?_, ?_⟩
  · intro e he
    rw [setTimerCore_registry] at he
    obtain ⟨hb, hpe⟩ := h1 e he
    rw [setTimerCore_length, pathOf_setTimerCore]
    exact ⟨hb, hpe⟩
  · intro j hj hpos
    rw [setTimerCore_length] at hj
    rw [strongOf_setTimerCore] at hpos
    rw [setTimerCore_registry, pathOf_setTimerCore]
    exact h2 j hj hpos
  · intro j hj k hk hpj hpk hpath
    rw [setTimerCore_length] at hj hk
    rw [strongOf_setTimerCore] at hpj hpk
    rw [pathOf_setTimerCore, pathOf_setTimerCore] at hpath
    exact h3 j hj k hk hpj hpk hpath
  · intro t ht
    unfold setTimerCore at ht
    simp only at ht
    by_cases hlen : i < s.timers.length
    · rcases List.mem_or_eq_of_mem_set ht with hm | hm
      · exact h4 t hm
      · subst hm
        show c.run.segments ≠ []
        rw [hc]
        unfold coreOf
        exact h4 _ (list_getD_mem _ _ _ hlen)
    · rw [List.set_eq_of_length_le (Nat.le_of_not_lt hlen)] at ht
      exact h4 t ht

/-! Lemmas about shared-timer resolution. -/

theorem appendTimer_length (s : Sys) (p : Path) (core : TimerCore) :
    (appendTimer s p core).timers.length = s.timers.length + 1 := by
  simp [appendTimer]

theorem appendTimer_registry (s : Sys) (p : Path) (core : TimerCore) :
    (appendTimer s p core).registry = s.registry ++ [(p, s.timers.length)] := rfl

theorem pathOf_appendTimer_lt (s : Sys) (p : Path) (core : TimerCore) (j : Nat)
    (hj : j < s.timers.length) : pathOf (appendTimer s p core) j = pathOf s j := by
  unfold pathOf appendTimer
  simp only
  rw [list_getD_append_left _ _ _ _ hj]

theorem pathOf_appendTimer_self (s : Sys) (p : Path) (core : TimerCore) :
    pathOf (appendTimer s p core) s.timers.length = p := by
  unfold pathOf appendTimer
  simp only
  rw [list_getD_concat_self]

theorem strongOf_appendTimer_lt (s : Sys) (p : Path) (core : TimerCore) (j : Nat)
    (hj : j < s.timers.length) : strongOf (appendTimer s p core) j = strongOf s j := by
  unfold strongOf appendTimer
  simp only
  rw [list_getD_append_left _ _ _ _ hj]

theorem strongOf_appendTimer_self (s : Sys) (p : Path) (core : TimerCore) :
    strongOf (appendTimer s p core) s.timers.length = 1 := by
  unfold strongOf appendTimer
  simp only
  rw [list_getD_concat_self]

theorem coreOf_appendTimer_self (s : Sys) (p : Path) (core : TimerCore) :
    coreOf (appendTimer s p core) s.timers.length = core := by
  unfold coreOf appendTimer
  simp only
  rw [list_getD_concat_self]

theorem sysInv_appendTimer (s : Sys) (p : Path) (core : TimerCore)
    (hinv : SysInv s)
    (hmiss : ∀ i, ¬ liveAt s i p)
    (hrun : core.run.segments ≠ []) :
    SysInv (appendTimer s p core) := by
  obtain ⟨h1, h2, h3, h4⟩ := hinv
  refine ⟨?_, ?_, ?_, ?_⟩
  · intro e he
    rw [appendTimer_registry] at he
    rcases List.mem_append.mp he with hm | hm
    · obtain ⟨hb, hpe⟩ := h1 e hm
      rw [appendTimer_length, pathOf_appendTimer_lt _ _ _ _ hb]
      exact ⟨by omega, hpe⟩
    · have he2 : e = (p, s.timers.length) := by simpa using hm
      subst he2
      refine ⟨?_, ?_⟩
      · rw [appendTimer_length]
        omega
      · show pathOf (appendTimer s p core) s.timers.length = p
        rw [pathOf_appendTimer_self]
  · intro j hj hpos
    rw [appendTimer_length] at hj
    rw [appendTimer_registry]
    by_cases hjl : j < s.timers.length
    · rw [strongOf_appendTimer_lt _ _ _ _ hjl] at hpos
      rw [pathOf_appendTimer_lt _ _ _ _ hjl]
      exact List.mem_append_left _ (h2 j hjl hpos)
    · have hje : j = s.timers.length := by omega
      subst hje
      rw [pathOf_appendTimer_self]
      exact List.mem_append_right _ (by simp)
  · intro j hj k hk hpj hpk hpath
    rw [appendTimer_length] at hj hk
    by_cases hjl : j < s.timers.length <;> by_cases hkl : k < s.timers.length
    · rw [strongOf_appendTimer_lt _ _ _ _ hjl] at hpj
      rw [strongOf_appendTimer_lt _ _ _ _ hkl] at hpk
      rw [pathOf_appendTimer_lt _ _ _ _ hjl, pathOf_appendTimer_lt _ _ _ _ hkl] at hpath
      exact h3 j hjl k hkl hpj hpk hpath
    · exfalso
      have hke : k = s.timers.length := by omega
      subst hke
      rw [strongOf_appendTimer_lt _ _ _ _ hjl] at hpj
      rw [pathOf_appendTimer_lt _ _ _ _ hjl, pathOf_appendTimer_self] at hpath
      exact hmiss j ⟨hjl, hpj, hpath⟩
    · exfalso
      have hje : j = s.timers.length := by omega
      subst hje
      rw [strongOf_appendTimer_lt _ _ _ _ hkl] at hpk
      rw [pathOf_appendTimer_lt _ _ _ _ hkl, pathOf_appendTimer_self] at hpath
      exact hmiss k ⟨hkl, hpk, hpath.symm⟩
    · omega
  · intro t ht
    unfold appendTimer at ht
    simp only at ht
    rcases List.mem_append.mp ht with hm | hm
    · exact h4 t hm
    · have ht2 : t = { path := p, strong := 1, core := core } := by simpa using hm
      subst ht2
      exact hrun

theorem resolve_isSome (s : Sys) (p : Path) (run : Run) (hrun : run.segments ≠ []) :
    (resolve s p run).isSome = true := by
  cases hfind : (prune s).registry.find?
      (fun e => e.1 == p && decide (0 < strongOf (prune s) e.2)) with
  | some e => simp [resolve, hfind]
  | none => simp [resolve, hfind, timer_new_nonempty run hrun]

theorem resolve_hit (s : Sys) (p : Path) (run : Run) (i : Nat)
    (hinv : SysInv s) (hlive : liveAt s i p) :
    resolve s p run = some (i, incStrong (prune s) i) := by
  obtain ⟨hlen, hpos, hpath⟩ := hlive
  cases hfind : (prune s).registry.find?
      (fun e => e.1 == p && decide (0 < strongOf (prune s) e.2)) with
  | none =>
    exfalso
    have hmem : (p, i) ∈ (prune s).registry := by
      rw [mem_prune_registry]
      refine ⟨?_, hpos⟩
      have hm := hinv.2.1 i hlen hpos
      rw [hpath] at hm
      exact hm
    have hnp := List.find?_eq_none.mp hfind (p, i) hmem
    apply hnp
    simp only [Bool.and_eq_true, beq_iff_eq, decide_eq_true_eq]
    refine ⟨by trivial, ?_⟩
    rw [strongOf_prune]
    exact hpos
  | some e =>
    have hpred := List.find?_some hfind
    simp only [Bool.and_eq_true, beq_iff_eq, decide_eq_true_eq] at hpred
    obtain ⟨hep, hepos⟩ := hpred
    have hemem := List.mem_of_find?_eq_some hfind
    rw [mem_prune_registry] at hemem
    obtain ⟨hereg, heres⟩ := hemem
    obtain ⟨heb, hepath⟩ := hinv.1 e hereg
    have hei : e.2 = i := by
      apply hinv.2.2.1 e.2 heb i hlen heres hpos
      rw [hepath, hep, hpath]
    simp [resolve, hfind, hei]

theorem resolve_miss (s : Sys) (p : Path) (run : Run)
    (hinv : SysInv s) (hmiss : ∀ i, ¬ liveAt s i p) (hrun : run.segments ≠ []) :
    resolve s p run = some (s.timers.length,
      appendTimer (prune s) p
        { run := run, phase := TimerPhase.NotRunning, method := TimingMethod.RealTime }) := by
  cases hfind : (prune s).registry.find?
      (fun e => e.1 == p && decide (0 < strongOf (prune s) e.2)) with
  | some e =>
    exfalso
    have hpred := List.find?_some hfind
    simp only [Bool.and_eq_true, beq_iff_eq, decide_eq_true_eq] at hpred
    obtain ⟨hep, hepos⟩ := hpred
    have hemem := List.mem_of_find?_eq_some hfind
    rw [mem_prune_registry] at hemem
    obtain ⟨hereg, heres⟩ := hemem
    obtain ⟨heb, hepath⟩ := hinv.1 e hereg
    exact hmiss e.2 ⟨heb, heres, by rw [hepath, hep]⟩
  | none =>
    simp only [resolve, hfind, timer_new_nonempty run hrun]
    rfl

theorem resolve_some_inv (s : Sys) (p : Path) (run : Run) (i : Nat) (s1 : Sys)
    (hinv : SysInv s) (hres : resolve s p run = some (i, s1)) :
    SysInv s1 ∧ i < s1.timers.length ∧ s.timers.length ≤ s1.timers.length := by
  unfold resolve at hres
  cases hfind : (prune s).registry.find?
      (fun e => e.1 == p && decide (0 < strongOf (prune s) e.2)) with
  | some e =>
    rw [hfind] at hres
    simp only [Option.some.injEq, Prod.mk.injEq] at hres
    obtain ⟨hei, hs1⟩ := hres
    have hpred := List.find?_some hfind
    simp only [Bool.and_eq_true, beq_iff_eq, decide_eq_true_eq] at hpred
    obtain ⟨hep, hepos⟩ := hpred
    have heb : e.2 < s.timers.length := strong_pos_lt_length s e.2 hepos
    subst hs1
    subst hei
    refine ⟨sysInv_incStrong _ _ (sysInv_prune s hinv) hepos, ?_, ?_⟩
    · rw [incStrong_length]
      exact heb
    · rw [incStrong_length]
      exact Nat.le_refl _
  | none =>
    rw [hfind] at hres
    cases hnew : Timer.new run with
    | none =>
      rw [hnew] at hres
      simp at hres
    | some core =>
      rw [hnew] at hres
      simp only [Option.some.injEq, Prod.mk.injEq] at hres
      obtain ⟨hei, hs1⟩ := hres
      have hmiss : ∀ j, ¬ liveAt (prune s) j p := by
        intro j hl
        obtain ⟨hjl, hjpos, hjpath⟩ := hl
        have hment := (sysInv_prune s hinv).2.1 j hjl hjpos
        have hnp := List.find?_eq_none.mp hfind _ hment
        apply hnp
        simp only [Bool.and_eq_true, beq_iff_eq, decide_eq_true_eq]
        exact ⟨hjpath, hjpos⟩
      obtain ⟨hcore, hcrun⟩ := timer_new_some_run run core hnew
      subst hs1
      subst hei
      refine ⟨sysInv_appendTimer (prune s) p core (sysInv_prune s hinv) hmiss hcrun, ?_, ?_⟩
      · rw [appendTimer_length]
        exact Nat.lt_succ_self _
      · rw [appendTimer_length]
        exact Nat.le_succ _

/-! World-level invariant preservation and totality. -/

theorem winv_createWith (w : World) (settings : Settings) (w1 : World)
    (hw : WInv w) (h : createWith w settings = some w1) : WInv w1 := by
  obtain ⟨hsys, hinst⟩ := hw
  unfold createWith at h
  cases hres : resolve w.sys settings.splits_path settings.run with
  | none =>
    rw [hres] at h
    simp at h
  | some pr =>
    obtain ⟨tid, sys1⟩ := pr
    rw [hres] at h
    simp only [Option.some.injEq] at h
    subst h
    obtain ⟨hinv1, htid, hmono⟩ := resolve_some_inv w.sys _ _ tid sys1 hsys hres
    refine ⟨hinv1, ?_⟩
    intro o ho inst hoi
    rcases List.mem_append.mp ho with hm | hm
    · exact Nat.lt_of_lt_of_le (hinst o hm inst hoi) hmono
    · rw [List.mem_singleton] at hm
      subst hm
      injection hoi with hoi2
      subst hoi2
      exact htid

theorem winv_updateWith (w : World) (idx : Nat) (settings : Settings) (w1 : World)
    (hw : WInv w) (h : updateWith w idx settings = some w1) : WInv w1 := by
  obtain ⟨hsys, hinst⟩ := hw
  unfold updateWith at h
  cases hin : w.instances.getD idx none with
  | none =>
    rw [hin] at h
    simp only [Option.some.injEq] at h
    subst h
    exact ⟨hsys, hinst⟩
  | some inst =>
    rw [hin] at h
    cases hres : resolve w.sys settings.splits_path settings.run with
    | none =>
      rw [hres] at h
      simp at h
    | some pr =>
      obtain ⟨tid, sys1⟩ := pr
      rw [hres] at h
      dsimp only at h
      obtain ⟨hinv1, htid, hmono⟩ := resolve_some_inv w.sys _ _ tid sys1 hsys hres
      by_cases hsz : (inst.width != settings.width || inst.height != settings.height) = true
      · rw [if_pos hsz] at h
        simp only [Option.some.injEq] at h
        subst h
        refine ⟨sysInv_decStrong _ _ hinv1, ?_⟩
        intro o ho inst2 hoi
        rw [decStrong_length]
        rcases List.mem_or_eq_of_mem_set ho with hm | hm
        · exact Nat.lt_of_lt_of_le (hinst o hm inst2 hoi) hmono
        · subst hm
          injection hoi with hoi2
          subst hoi2
          exact htid
      · rw [if_neg hsz] at h
        simp only [Option.some.injEq] at h
        subst h
        refine ⟨sysInv_decStrong _ _ hinv1, ?_⟩
        intro o ho inst2 hoi
        rw [decStrong_length]
        rcases List.mem_or_eq_of_mem_set ho with hm | hm
        · exact Nat.lt_of_lt_of_le (hinst o hm inst2 hoi) hmono
        · subst hm
          injection hoi with hoi2
          subst hoi2
          exact htid

theorem winv_destroyOp (w : World) (idx : Nat) (hw : WInv w) : WInv (destroyOp w idx) := by
  obtain ⟨hsys, hinst⟩ := hw
  unfold destroyOp
  cases hin : w.instances.getD idx none with
  | none => exact ⟨hsys, hinst⟩
  | some inst =>
    refine ⟨sysInv_decStrong _ _ hsys, ?_⟩
    intro o ho inst2 hoi
    rw [decStrong_length]
    rcases List.mem_or_eq_of_mem_set ho with hm | hm
    · exact hinst o hm inst2 hoi
    · subst hm
      simp at hoi

theorem winv_mediaPlayPauseOp (w : World) (idx : Nat) (b : Bool) (hw : WInv w) :
    WInv (mediaPlayPauseOp w idx b) := by
  obtain ⟨hsys, hinst⟩ := hw
  unfold mediaPlayPauseOp
  cases hin : w.instances.getD idx none with
  | none => exact ⟨hsys, hinst⟩
  | some inst =>
    refine ⟨?_, ?_⟩
    · exact sysInv_setTimerCore _ _ _ hsys (media_play_pause_run _ _)
    · intro o ho inst2 hoi
      rw [setTimerCore_length]
      exact hinst o ho inst2 hoi

theorem winv_stepOp (w : World) (op : SysOp) (w1 : World) (hw : WInv w)
    (h : stepOp w op = some w1) : WInv w1 := by
  cases op with
  | create raw => exact winv_createWith w (parse_settings raw) w1 hw h
  | update idx raw => exact winv_updateWith w idx (parse_settings raw) w1 hw h
  | destroy idx =>
    injection h with h2
    subst h2
    exact winv_destroyOp w idx hw
  | mediaPlayPause idx b =>
    injection h with h2
    subst h2
    exact winv_mediaPlayPauseOp w idx b hw

theorem winv_runOps (ops : List SysOp) (w0 w : World) (hw : WInv w0)
    (h : runOps w0 ops = some w) : WInv w := by
  induction ops generalizing w0 with
  | nil =>
    unfold runOps at h
    simp only [Option.some.injEq] at h
    subst h
    exact hw
  | cons op ops ih =>
    unfold runOps at h
    cases hstep : stepOp w0 op with
    | none =>
      rw [hstep] at h
      simp at h
    | some w2 =>
      rw [hstep] at h
      exact ih w2 (winv_stepOp w0 op w2 hw hstep) h

theorem winv_initWorld : WInv initWorld := by decide

theorem stepOp_isSome (w : World) (op : SysOp) : (stepOp w op).isSome = true := by
  cases op with
  | create raw =>
    show (createWith w (parse_settings raw)).isSome = true
    unfold createWith
    cases hres : resolve w.sys (parse_settings raw).splits_path (parse_settings raw).run with
    | none =>
      exfalso
      have hs := resolve_isSome w.sys (parse_settings raw).splits_path (parse_settings raw).run
        (parse_settings_run_nonempty raw)
      rw [hres] at hs
      simp at hs
    | some pr =>
      obtain ⟨tid, sys1⟩ := pr
      rfl
  | update idx raw =>
    show (updateWith w idx (parse_settings raw)).isSome = true
    unfold updateWith
    cases hin : w.instances.getD idx none with
    | none => rfl
    | some inst =>
      cases hres : resolve w.sys (parse_settings raw).splits_path (parse_settings raw).run with
      | none =>
        exfalso
        have hs := resolve_isSome w.sys (parse_settings raw).splits_path (parse_settings raw).run
          (parse_settings_run_nonempty raw)
        rw [hres] at hs
        simp at hs
      | some pr =>
        obtain ⟨tid, sys1⟩ := pr
        dsimp only
        by_cases hsz :
            (inst.width != (parse_settings raw).width
              || inst.height != (parse_settings raw).height) = true
        · rw [if_pos hsz]
          rfl
        · rw [if_neg hsz]
          rfl
  | destroy idx => rfl
  | mediaPlayPause idx b => rfl

theorem runOps_isSome (w : World) (ops : List SysOp) : (runOps w ops).isSome = true := by
  induction ops generalizing w with
  | nil => rfl
  | cons op ops ih =>
    unfold runOps
    cases hstep : stepOp w op with
    | none =>
      exfalso
      have hs := stepOp_isSome w op
      rw [hstep] at hs
      simp at hs
    | some w2 => exact ih w2

/-! Further list helpers for instance slots. -/

theorem list_get_of_getD_none {α : Type} (l : List (Option α)) (i : Nat) (x : α)
    (h : l.getD i none = some x) : l[i]? = some (some x) := by
  rw [List.getD_eq_getElem?_getD] at h
  cases hg : l[i]? with
  | none =>
    rw [hg] at h
    simp at h
  | some o =>
    rw [hg] at h
    simp only [Option.getD_some] at h
    rw [h]

theorem list_getD_none_lt {α : Type} (l : List (Option α)) (i : Nat) (x : α)
    (h : l.getD i none = some x) : i < l.length := by
  by_contra hge
  rw [list_getD_oob _ _ _ (Nat.le_of_not_lt hge)] at h
  cases h

theorem list_set_of_getD_none {α : Type} (l : List (Option α)) (i : Nat) (x : α)
    (h : l.getD i none = some x) : l.set i (some x) = l := by
  apply list_set_self
  rw [List.getD_eq_getElem?_getD, list_get_of_getD_none l i x h]
  rfl

theorem list_getD_irrel {α : Type} (l : List α) (i : Nat) (d1 d2 : α)
    (h : i < l.length) : l.getD i d1 = l.getD i d2 := by
  rw [List.getD_eq_getElem?_getD, List.getD_eq_getElem?_getD, List.getElem?_eq_getElem h]
  rfl

theorem dropStrong_bumpStrong (t : TimerObj) : dropStrong (bumpStrong t) = t := by
  unfold dropStrong bumpStrong
  simp

theorem decStrong_incStrong_timers (s : Sys) (i : Nat) :
    (decStrong (incStrong s i) i).timers = s.timers := by
  unfold decStrong incStrong
  by_cases hlen : i < s.timers.length
  · simp only
    rw [list_getD_set_self _ _ _ _ hlen, dropStrong_bumpStrong, List.set_set]
    apply list_set_self
    exact list_getD_irrel _ _ _ _ hlen
  · simp only
    rw [List.set_eq_of_length_le (Nat.le_of_not_lt hlen)]
    rw [List.set_eq_of_length_le (Nat.le_of_not_lt hlen)]

/-! Concrete fixtures used by the witnesses. -/

/-- A valid two-segment run, as the composite parser would return it. -/
def runGood : Run :=
  ⟨[{ name := "One", pbReal := some 61000, pbGame := none },
    { name := "Two", pbReal := some 90000, pbGame := some 88000 }]⟩

/-- A configuration whose splits file parses as a LiveSplit-format run. -/
def rawGood : RawSettings :=
  { splits_path := "runs/s.lss",
    splits_file := SplitsFile.parsed runGood TimerKind.LiveSplit,
    layout_file := LayoutFile.lslDocument "layout",
    width := 300, height := 500 }

/-- A configuration whose splits file fails to parse and whose layout path
is empty. -/
def rawBad : RawSettings :=
  { splits_path := "bad.lss",
    splits_file := SplitsFile.malformed,
    layout_file := LayoutFile.emptyPath,
    width := 300, height := 500 }

/-- A timer over the default run, not yet started. -/
def timerA : TimerCore :=
  { run := default_run.1, phase := TimerPhase.NotRunning, method := TimingMethod.RealTime }

/-- The process after creating one instance from the valid configuration. -/
def wOne : World := (runOps initWorld [SysOp.create rawGood]).getD initWorld

/-- Fallback instance for defaulted reads. -/
def dummyInstance : Instance :=
  { timerId := 0, splitsPath := "", can_save_splits := false,
    layout := LayoutV.defaultLayout, layoutState := LayoutStateV.default,
    texture := 0, textureContent := none, width := 0, height := 0 }

/-- The single instance of wOne. -/
def instOne : Instance := (wOne.instances.getD 0 none).getD dummyInstance

/-! Claim theorems. -/

/-- C3: media_play_pause maps (phase, pause flag) exactly as specified:
NotRunning with pause=false starts the timer (its phase becomes Running),
Running with pause=true pauses it (phase becomes Paused), Paused with
pause=false resumes it (phase becomes Running), Ended ignores the event
entirely, and every remaining combination (NotRunning+true, Running+false,
Paused+true) leaves the timer unchanged. -/
theorem media_play_pause_dispatch (t : TimerCore) (b : Bool) :
    (t.phase = TimerPhase.NotRunning →
      media_play_pause t false = Timer.start t ∧
      (media_play_pause t false).phase = TimerPhase.Running ∧
      media_play_pause t true = t) ∧
    (t.phase = TimerPhase.Running →
      media_play_pause t true = Timer.pause t ∧
      (media_play_pause t true).phase = TimerPhase.Paused ∧
      media_play_pause t false = t) ∧
    (t.phase = TimerPhase.Paused →
      media_play_pause t false = Timer.resume t ∧
      (media_play_pause t false).phase = TimerPhase.Running ∧
      media_play_pause t true = t) ∧
    (t.phase = TimerPhase.Ended → media_play_pause t b = t) := by
  obtain ⟨run, ph, m⟩ := t
  cases ph <;> cases b <;>
    simp [media_play_pause, Timer.start, Timer.pause, Timer.resume]

/-- Witness for C3: the dispatch theorem evaluated at a concrete NotRunning
timer. -/
theorem media_play_pause_dispatch_witness :
    media_play_pause timerA false = Timer.start timerA ∧
    (media_play_pause timerA false).phase = TimerPhase.Running ∧
    media_play_pause timerA true = timerA :=
  (media_play_pause_dispatch timerA false).1 rfl

/-- C4: a negative mouse-wheel delta scrolls the layout down, a positive
delta scrolls it up, and a zero delta changes nothing; the handler is
layout-local - the instances it produces do not depend on the shared timer
component at all (not read), and the shared timer component is returned
untouched (not mutated); a zero delta leaves the whole process unchanged. -/
theorem mouse_wheel_dispatch (w : World) (idx : Nat) (y : Int) (l : LayoutV) (s1 s2 : Sys) :
    (y < 0 → mouse_wheel y l = LayoutV.scrolledDown l) ∧
    (0 < y → mouse_wheel y l = LayoutV.scrolledUp l) ∧
    mouse_wheel 0 l = l ∧
    (mouseWheelOp w idx y).sys = w.sys ∧
    (mouseWheelOp { w with sys := s1 } idx y).instances
      = (mouseWheelOp { w with sys := s2 } idx y).instances ∧
    mouseWheelOp w idx 0 = w := by
  refine ⟨?_, ?_, ?_, ?_, ?_, ?_⟩
  · intro hy
    unfold mouse_wheel
    rw [if_pos hy]
  · intro hy
    unfold mouse_wheel
    rw [if_neg (by omega), if_pos hy]
  · simp [mouse_wheel]
  · unfold mouseWheelOp
    cases hin : w.instances.getD idx none <;> rfl
  · unfold mouseWheelOp
    dsimp only
    cases hin : w.instances.getD idx none <;> rfl
  · unfold mouseWheelOp
    cases hin : w.instances.getD idx none with
    | none => rfl
    | some inst =>
      dsimp only
      have hmz : mouse_wheel 0 inst.layout = inst.layout := by simp [mouse_wheel]
      rw [hmz]
      show { w with instances := w.instances.set idx (some inst) } = w
      rw [list_set_of_getD_none _ _ _ hin]

/-- Witness for C4: the dispatch theorem evaluated at delta -1 on a
concrete layout and at the created instance of wOne. -/
theorem mouse_wheel_dispatch_witness :
    mouse_wheel (-1) LayoutV.defaultLayout = LayoutV.scrolledDown LayoutV.defaultLayout ∧
    (mouseWheelOp wOne 0 (-1)).sys = wOne.sys :=
  ⟨(mouse_wheel_dispatch wOne 0 (-1) LayoutV.defaultLayout wOne.sys wOne.sys).1 (by decide),
   (mouse_wheel_dispatch wOne 0 (-1) LayoutV.defaultLayout wOne.sys wOne.sys).2.2.2.1⟩

/-- C7 counterexample: with the save flag set but file creation failing
(File::create returns an error), no write happens, so "serializes if and
only if the flag is set" fails at this concrete input. -/
theorem save_splits_iff_refuted :
    ¬ (((save_splits (fun _ => false) true "runs/s.lss" timerA).2 ≠ []) ↔ true = true) := by
  decide

/-- C7 as amended: the callback always returns false to the host; with the
flag unset no filesystem write happens at all; any write implies the flag
was set; with the flag set the write happens provided the file can be
created, and it serializes the timer exactly to the instance's original
splits path (every write targets that path). -/
theorem save_splits_guarded (createOk : Path → Bool) (canSave : Bool) (p : Path) (t : TimerCore) :
    (save_splits createOk canSave p t).1 = false ∧
    (canSave = false → (save_splits createOk canSave p t).2 = []) ∧
    ((save_splits createOk canSave p t).2 ≠ [] → canSave = true) ∧
    (canSave = true → createOk p = true → (save_splits createOk canSave p t).2 = [(p, t)]) ∧
    (∀ e ∈ (save_splits createOk canSave p t).2, e.1 = p) := by
  cases canSave <;> by_cases hc : createOk p = true <;>
    simp [save_splits, hc]

/-- Witness for C7 (amended): a saving instance with a writable path
serializes the timer to that path. -/
theorem save_splits_guarded_witness :
    (save_splits (fun _ => true) true "runs/s.lss" timerA).2 = [("runs/s.lss", timerA)] :=
  ((save_splits_guarded (fun _ => true) true "runs/s.lss" timerA).2.2.2.1) rfl rfl

/-- C9: configuration errors are absorbed locally: when the splits file
fails to parse (or the run is empty) the parsed settings carry the default
one-segment run with the cannot-save flag; when the layout fails to parse
the parsed settings carry the default layout; and in all cases the create
and update operations complete successfully. -/
theorem config_errors_recovered (raw : RawSettings) (w : World) (idx : Nat) :
    (parse_run raw.splits_file = none →
      (parse_settings raw).run = default_run.1 ∧
      (parse_settings raw).can_save_splits = false) ∧
    (parse_layout raw.layout_file = none →
      (parse_settings raw).layout = LayoutV.defaultLayout) ∧
    (createOp w raw).isSome = true ∧
    (updateOp w idx raw).isSome = true := by
  refine ⟨?_, ?_, ?_, ?_⟩
  · intro h
    unfold parse_settings
    rw [h]
    exact ⟨rfl, rfl⟩
  · intro h
    unfold parse_settings
    rw [h]
    rfl
  · exact stepOp_isSome w (SysOp.create raw)
  · exact stepOp_isSome w (SysOp.update idx raw)

/-- Witness for C9: the malformed configuration evaluated concretely. -/
theorem config_errors_recovered_witness :
    ((parse_settings rawBad).run = default_run.1 ∧
      (parse_settings rawBad).can_save_splits = false) ∧
    (parse_settings rawBad).layout = LayoutV.defaultLayout ∧
    (createOp initWorld rawBad).isSome = true :=
  ⟨(config_errors_recovered rawBad initWorld 0).1 rfl,
   (config_errors_recovered rawBad initWorld 0).2.1 rfl,
   (config_errors_recovered rawBad initWorld 0).2.2.1⟩

/-- C2 counterexample: creating an instance from a malformed splits file on
an empty registry mutates the registry - it gains an entry for the identity,
mapped to the fallback timer - refuting "the registry is not mutated" at a
concrete input (the caller does receive the fallback timer, the claim's
other half). -/
theorem create_malformed_registry_mutated :
    parse_run rawBad.splits_file = none ∧
    initWorld.sys.registry = [] ∧
    (createOp initWorld rawBad).map (fun w => w.sys.registry) = some [("bad.lss", 0)] := by
  decide

/-- C2 as amended: when the initial run data is malformed (or the run is
empty), the default single-segment run is substituted during settings
parsing, before registry resolution; timer construction then succeeds, and
when no live timer exists for the identity the caller receives a fresh
fallback timer built from the default run, marked cannot-save - and a
registry entry pointing at that fallback timer is inserted, so the registry
IS mutated, in exactly this way. -/
theorem create_malformed_fallback_registered (w : World) (raw : RawSettings)
    (hbad : parse_run raw.splits_file = none)
    (hinv : SysInv w.sys)
    (hmiss : ∀ i, ¬ liveAt w.sys i raw.splits_path) :
    createOp w raw = some
      { sys := appendTimer (prune w.sys) raw.splits_path
          { run := default_run.1, phase := TimerPhase.NotRunning,
            method := TimingMethod.RealTime },
        instances := w.instances ++
          [some { timerId := w.sys.timers.length,
                  splitsPath := raw.splits_path,
                  can_save_splits := false,
                  layout := (parse_layout raw.layout_file).getD LayoutV.defaultLayout,
                  layoutState := LayoutStateV.default,
                  texture := w.nextTexture,
                  textureContent := none,
                  width := raw.width,
                  height := raw.height }],
        nextTexture := w.nextTexture + 1,
        destroyedTextures := w.destroyedTextures } := by
  have hset : parse_settings raw =
      { run := default_run.1, splits_path := raw.splits_path,
        can_save_splits := false,
        layout := (parse_layout raw.layout_file).getD LayoutV.defaultLayout,
        width := raw.width, height := raw.height } := by
    unfold parse_settings
    rw [hbad]
    rfl
  unfold createOp
  rw [hset]
  unfold createWith
  dsimp only
  rw [resolve_miss w.sys raw.splits_path default_run.1 hinv hmiss default_run_nonempty]

/-- Witness for C2 (amended): the malformed configuration applied to the
initial process. -/
theorem create_malformed_fallback_registered_witness :
    createOp initWorld rawBad = some
      { sys := appendTimer (prune initWorld.sys) rawBad.splits_path
          { run := default_run.1, phase := TimerPhase.NotRunning,
            method := TimingMethod.RealTime },
        instances := initWorld.instances ++
          [some { timerId := initWorld.sys.timers.length,
                  splitsPath := rawBad.splits_path,
                  can_save_splits := false,
                  layout := (parse_layout rawBad.layout_file).getD LayoutV.defaultLayout,
                  layoutState := LayoutStateV.default,
                  texture := initWorld.nextTexture,
                  textureContent := none,
                  width := rawBad.width,
                  height := rawBad.height }],
        nextTexture := initWorld.nextTexture + 1,
        destroyedTextures := initWorld.destroyedTextures } :=
  create_malformed_fallback_registered initWorld rawBad rfl (by decide)
    (fun i hl => absurd hl.1 (Nat.not_lt_zero i))

/-- C5: the render step only reads the shared timer: the Sys component (all
timers and the registry) is returned unchanged, the render-target counters
and destroyed-target log are unchanged, every other instance slot is
unchanged, and the rendered instance differs only in its visual state cache
and its uploaded texture content - its timer reference, splits path, save
flag, layout, render-target handle and size are all preserved. -/
theorem video_render_read_only (w : World) (idx : Nat) (inst : Instance)
    (hin : w.instances.getD idx none = some inst) :
    (video_render w idx).sys = w.sys ∧
    (video_render w idx).nextTexture = w.nextTexture ∧
    (video_render w idx).destroyedTextures = w.destroyedTextures ∧
    (∀ j, j ≠ idx → (video_render w idx).instances.getD j none = w.instances.getD j none) ∧
    (video_render w idx).instances.getD idx none
      = some (renderedInstance inst (coreOf w.sys inst.timerId)) ∧
    (renderedInstance inst (coreOf w.sys inst.timerId)).timerId = inst.timerId ∧
    (renderedInstance inst (coreOf w.sys inst.timerId)).splitsPath = inst.splitsPath ∧
    (renderedInstance inst (coreOf w.sys inst.timerId)).can_save_splits
      = inst.can_save_splits ∧
    (renderedInstance inst (coreOf w.sys inst.timerId)).layout = inst.layout ∧
    (renderedInstance inst (coreOf w.sys inst.timerId)).texture = inst.texture ∧
    (renderedInstance inst (coreOf w.sys inst.timerId)).width = inst.width ∧
    (renderedInstance inst (coreOf w.sys inst.timerId)).height = inst.height := by
  unfold video_render
  rw [hin]
  dsimp only
  refine ⟨rfl, rfl, rfl, ?_, ?_, rfl, rfl, rfl, rfl, rfl, rfl, rfl⟩
  · intro j hj
    exact list_getD_set_ne _ _ _ _ _ hj
  · exact list_getD_set_self _ _ _ _ (list_getD_none_lt _ _ _ hin)

/-- Witness for C5: rendering the single instance of wOne. -/
theorem video_render_read_only_witness :
    (video_render wOne 0).sys = wOne.sys ∧
    (video_render wOne 0).instances.getD 0 none
      = some (renderedInstance instOne (coreOf wOne.sys instOne.timerId)) :=
  ⟨(video_render_read_only wOne 0 instOne (by decide)).1,
   (video_render_read_only wOne 0 instOne (by decide)).2.2.2.2.1⟩

/-- C1: for every sequence of host operations run from the initial state,
the registry keeps at most one live timer per splits identity; resolving an
identity with no live timer always constructs a fresh timer in a new arena
slot (a stale identity is re-created, never resurrected) after the prune
step; and resolving an identity that has a live timer returns exactly that
one live timer. -/
theorem registry_unique_live_timer (ops : List SysOp) (w : World)
    (h : runOps initWorld ops = some w) :
    (∀ i < w.sys.timers.length, ∀ j < w.sys.timers.length,
      0 < strongOf w.sys i → 0 < strongOf w.sys j →
      pathOf w.sys i = pathOf w.sys j → i = j) ∧
    (∀ p run, run.segments ≠ [] → (∀ i, ¬ liveAt w.sys i p) →
      resolve w.sys p run = some (w.sys.timers.length,
        appendTimer (prune w.sys) p
          { run := run, phase := TimerPhase.NotRunning,
            method := TimingMethod.RealTime })) ∧
    (∀ p i run, liveAt w.sys i p →
      resolve w.sys p run = some (i, incStrong (prune w.sys) i)) := by
  have hw := winv_runOps ops initWorld w winv_initWorld h
  obtain ⟨hsys, hinst⟩ := hw
  refine ⟨hsys.2.2.1, ?_, ?_⟩
  · intro p run hrun hmiss
    exact resolve_miss w.sys p run hsys hmiss hrun
  · intro p i run hl
    exact resolve_hit w.sys p run i hsys hl

/-- Witness for C1: after one create, resolving the same identity again is
a hit on the one live timer (slot 0). -/
theorem registry_unique_live_timer_witness :
    resolve wOne.sys "runs/s.lss" default_run.1
      = some (0, incStrong (prune wOne.sys) 0) :=
  (registry_unique_live_timer [SysOp.create rawGood] wOne (by decide)).2.2
    "runs/s.lss" 0 default_run.1 (by decide)

/-- C10: along every sequence of host operations from the initial state the
run never aborts (the unwrap around timer construction never fires), and
every live instance references a valid timer whose run has at least one
segment, so media_get_duration's access to the last segment of the run
always yields a value. -/
theorem instance_run_nonempty_duration_safe (ops : List SysOp) (w : World)
    (idx : Nat) (inst : Instance)
    (h : runOps initWorld ops = some w)
    (hin : w.instances.getD idx none = some inst) :
    (runOps initWorld ops).isSome = true ∧
    ∃ t, w.sys.timers.getD inst.timerId dummyTimer = t ∧
      inst.timerId < w.sys.timers.length ∧
      t.core.run.segments ≠ [] ∧
      (media_get_duration t.core).isSome = true := by
  have hw := winv_runOps ops initWorld w winv_initWorld h
  obtain ⟨hsys, hinst⟩ := hw
  have hmem0 : some inst ∈ w.instances :=
    List.getElem?_mem (list_get_of_getD_none w.instances idx inst hin)
  have htid := hinst (some inst) hmem0 inst rfl
  have hne : (w.sys.timers.getD inst.timerId dummyTimer).core.run.segments ≠ [] :=
    hsys.2.2.2 _ (list_getD_mem _ _ _ htid)
  refine ⟨runOps_isSome initWorld ops,
    w.sys.timers.getD inst.timerId dummyTimer, rfl, htid, hne, ?_⟩
  unfold media_get_duration
  cases hl : (w.sys.timers.getD inst.timerId dummyTimer).core.run.segments.getLast? with
  | none =>
    exfalso
    have hs := List.getLast?_isSome.mpr hne
    rw [hl] at hs
    simp at hs
  | some seg => rfl

/-- Witness for C10: the single instance of wOne evaluated concretely. -/
theorem instance_run_nonempty_duration_safe_witness :
    (runOps initWorld [SysOp.create rawGood]).isSome = true ∧
    ∃ t, wOne.sys.timers.getD instOne.timerId dummyTimer = t ∧
      instOne.timerId < wOne.sys.timers.length ∧
      t.core.run.segments ≠ [] ∧
      (media_get_duration t.core).isSome = true :=
  instance_run_nonempty_duration_safe [SysOp.create rawGood] wOne 0 instOne
    (by decide) (by decide)

/-- C8: updating an instance with a configuration identical to its current
one is idempotent on the named observables: the timer reference, the visual
layout state, the render-target handle and the size are all unchanged; the
strong-count bump of the registry hit is exactly cancelled by the drop of
the old reference, so even the timer arena is unchanged; and no render
target is destroyed or created (no teardown or rebuild). -/
theorem update_identical_config_idempotent (w : World) (idx : Nat) (inst : Instance)
    (raw : RawSettings)
    (hinv : SysInv w.sys)
    (hin : w.instances.getD idx none = some inst)
    (hlive : liveAt w.sys inst.timerId inst.splitsPath)
    (hP : (parse_settings raw).splits_path = inst.splitsPath)
    (hW : (parse_settings raw).width = inst.width)
    (hH : (parse_settings raw).height = inst.height) :
    ∃ w1, updateOp w idx raw = some w1 ∧
      w1.sys.timers = w.sys.timers ∧
      w1.nextTexture = w.nextTexture ∧
      w1.destroyedTextures = w.destroyedTextures ∧
      ∃ inst1, w1.instances.getD idx none = some inst1 ∧
        inst1.timerId = inst.timerId ∧
        inst1.layoutState = inst.layoutState ∧
        inst1.texture = inst.texture ∧
        inst1.width = inst.width ∧
        inst1.height = inst.height := by
  unfold updateOp updateWith
  rw [hin]
  dsimp only
  rw [hP, hW, hH]
  rw [resolve_hit w.sys inst.splitsPath (parse_settings raw).run inst.timerId hinv hlive]
  dsimp only
  rw [if_neg (by simp)]
  refine ⟨_, rfl, ?_, rfl, rfl, ?_⟩
  · exact decStrong_incStrong_timers (prune w.sys) inst.timerId
  · exact ⟨_, list_getD_set_self _ _ _ _ (list_getD_none_lt _ _ _ hin),
      rfl, rfl, rfl, rfl, rfl⟩

/-- Witness for C8: re-applying the identical configuration to the single
instance of wOne. -/
theorem update_identical_config_idempotent_witness :
    ∃ w1, updateOp wOne 0 rawGood = some w1 ∧
      w1.sys.timers = wOne.sys.timers ∧
      w1.nextTexture = wOne.nextTexture ∧
      w1.destroyedTextures = wOne.destroyedTextures ∧
      ∃ inst1, w1.instances.getD 0 none = some inst1 ∧
        inst1.timerId = instOne.timerId ∧
        inst1.layoutState = instOne.layoutState ∧
        inst1.texture = instOne.texture ∧
        inst1.width = instOne.width ∧
        inst1.height = instOne.height :=
  update_identical_config_idempotent wOne 0 instOne rawGood (by decide) (by decide)
    (by decide) (by decide) (by decide) (by decide)

end ObsLiveSplitOne
